import Mathlib

/-!
Verification of the opensea-stream-rs client against its specification.

The development shallowly embeds the three source files (`src/client.rs`,
`src/protocol.rs`, `src/schema.rs`).  Serde-derived deserializers are
modelled as total functions from a JSON value model to a three-way result
(success, structured decode error, Rust panic); serde_json's text parsing
is an external facility (out of scope per the spec) and a wire message is
therefore modelled as either a parsed JSON value or an unparseable text.
JSON numeric literals are modelled as integers: no claim under scrutiny
involves fractional literals.  Machine integers are Nat/Int with explicit
bounds where overflow matters (U256, i64, H160, H256).
-/

/-- Result of running a serde deserializer, distinguishing a structured
decode error (`err`, recoverable by the caller) from a Rust panic
(`panicked`, which aborts the surrounding task). -/
inductive SerdeResult (α : Type) where
  | ok (val : α)
  | err (msg : String)
  | panicked
deriving DecidableEq

/-- Monadic sequencing for deserializers: errors and panics propagate. -/
def SerdeResult.bind {α β : Type} : SerdeResult α → (α → SerdeResult β) → SerdeResult β
  | .ok a, f => f a
  | .err m, _ => .err m
  | .panicked, _ => .panicked

/-- Map over a successful result. -/
def SerdeResult.map {α β : Type} (f : α → β) : SerdeResult α → SerdeResult β
  | .ok a => .ok (f a)
  | .err m => .err m
  | .panicked => .panicked

instance : Monad SerdeResult where
  pure := .ok
  bind := SerdeResult.bind

/-- Model of a serde_json value.  Numbers are modelled as integers; no
claim involves fractional numeric literals. -/
inductive Json where
  | null
  | bool (b : Bool)
  | num (n : Int)
  | str (s : String)
  | arr (elems : List Json)
  | obj (fields : List (String × Json))

/-- First binding of a field name in a JSON object, as serde sees it. -/
def jsonLookup : List (String × Json) → String → Option Json
  | [], _ => none
  | (k, v) :: rest, name => if k = name then some v else jsonLookup rest name

/-- Decode a required struct field: missing fields are a serde decode
error ("missing field"), mirroring derived `Deserialize`. -/
def reqField {α : Type} (fs : List (String × Json)) (name : String)
    (dec : Json → SerdeResult α) : SerdeResult α :=
  match jsonLookup fs name with
  | none => .err ("missing field " ++ name)
  | some v => dec v

/-- Decode an `Option` struct field: serde resolves a missing field or an
explicit `null` to `None`, and otherwise decodes the value. -/
def optField {α : Type} (fs : List (String × Json)) (name : String)
    (dec : Json → SerdeResult α) : SerdeResult (Option α) :=
  match jsonLookup fs name with
  | none => .ok none
  | some .null => .ok none
  | some v => (dec v).map some

/-- Serde deserializer for `String`. -/
def decodeString : Json → SerdeResult String
  | .str s => .ok s
  | _ => .err "invalid type: expected a string"

/-- Serde deserializer for `bool`. -/
def decodeBool : Json → SerdeResult Bool
  | .bool b => .ok b
  | _ => .err "invalid type: expected a boolean"

/-- Serde deserializer for `u64`: a non-negative integer literal. -/
def decodeU64 : Json → SerdeResult Nat
  | .num n => if 0 ≤ n then .ok n.toNat else .err "invalid value: expected u64"
  | _ => .err "invalid type: expected u64"

/-- Serde deserializer for `serde_json::Value`: accepts anything. -/
def decodeValue : Json → SerdeResult Json
  | j => .ok j

/-- Element loop of the `Vec<T>` deserializer. -/
def decodeListGo {α : Type} (dec : Json → SerdeResult α) : List Json → SerdeResult (List α)
  | [] => .ok []
  | j :: rest => do
    let a ← dec j
    let as ← decodeListGo dec rest
    pure (a :: as)

/-- Serde deserializer for `Vec<T>`. -/
def decodeList {α : Type} (dec : Json → SerdeResult α) : Json → SerdeResult (List α)
  | .arr elems => decodeListGo dec elems
  | _ => .err "invalid type: expected a sequence"

/-! ## Decimal digit strings

Shared machinery for the `u256_fromstr_radix_10` codec (uint's
`from_dec_str` / `Display`) and Rust's `i64` string parsing, both of
which fold base-10 digits with a per-step overflow check against a cap.
-/

/-- Digit-folding loop of uint's `from_dec_str` and of Rust integer
parsing: each byte is wrapping-subtracted from `'0'`, rejected if it is
not a digit, and accumulated with an overflow check against `cap` (the
largest representable value).  The source checks the multiply and the add
separately; failing iff the combined value exceeds the cap is
extensionally the same condition. -/
def decDigitsGo (cap : Nat) : Nat → List Char → Option Nat
  | acc, [] => some acc
  | acc, c :: cs =>
    let b := (c.toNat + 256 - 48) % 256
    if 9 < b then none
    else if cap < acc * 10 + b then none
    else decDigitsGo cap (acc * 10 + b) cs

/-- Base-10 digits of `n`, most significant first.  `fuel` bounds the
recursion; any `fuel ≥ n` is enough. -/
def natToDecDigits : Nat → Nat → List Nat
  | 0, _ => []
  | fuel + 1, n => if n = 0 then [] else natToDecDigits fuel (n / 10) ++ [n % 10]

/-- Canonical decimal rendering of a natural number (Rust `Display` for
unsigned integers): no leading zeros, `"0"` for zero. -/
def natToDecStr (n : Nat) : String :=
  if n = 0 then "0" else String.mk ((natToDecDigits n n).map Nat.digitChar)

/-- Canonical decimal rendering of a signed integer (Rust `Display` for
`i64`): a minus sign followed by the magnitude. -/
def intToDecStr (n : Int) : String :=
  if n < 0 then "-" ++ natToDecStr n.natAbs else natToDecStr n.toNat

/-- Rust `str::parse::<i64>()`: an optional sign, then at least one
decimal digit, accumulated with per-step overflow checks against the
`i64` range. -/
def parseI64 (s : String) : Option Int :=
  match s.data with
  | [] => none
  | c :: cs =>
    if c = '+' then
      if cs.isEmpty then none
      else (decDigitsGo (2 ^ 63 - 1) 0 cs).map Int.ofNat
    else if c = '-' then
      if cs.isEmpty then none
      else (decDigitsGo (2 ^ 63) 0 cs).map (fun m => -(m : Int))
    else (decDigitsGo (2 ^ 63 - 1) 0 (c :: cs)).map Int.ofNat

/-! ## Fixed-width hexadecimal (H160 addresses, H256 hashes) -/

/-- Value of a hexadecimal digit character, both cases accepted. -/
def hexDigitVal (c : Char) : Option Nat :=
  if '0' ≤ c ∧ c ≤ '9' then some (c.toNat - 48)
  else if 'a' ≤ c ∧ c ≤ 'f' then some (c.toNat - 97 + 10)
  else if 'A' ≤ c ∧ c ≤ 'F' then some (c.toNat - 65 + 10)
  else none

/-- Fold hexadecimal digit characters most-significant first. -/
def parseHexChars : List Char → Nat → Option Nat
  | [], acc => some acc
  | c :: cs, acc =>
    match hexDigitVal c with
    | none => none
    | some d => parseHexChars cs (acc * 16 + d)

/-- Fixed-width lowercase hexadecimal digits of `v`, most significant
first, as emitted by impl-serde for fixed-hash types. -/
def toHexFixed : Nat → Nat → List Char
  | 0, _ => []
  | w + 1, v => Nat.digitChar (v / 16 ^ w % 16) :: toHexFixed w v

/-- A 160-bit account address (`ethers_core::abi::Address`, i.e. `H160`),
as a natural number below `2 ^ 160`. -/
abbrev Address := Nat

/-- A 256-bit hash (`H256`), as a natural number below `2 ^ 256`. -/
abbrev H256Val := Nat

/-- Serde serialization of a fixed-hash value (impl-serde): the string
`0x` followed by exactly `2 * bytes` lowercase hex digits. -/
def fixedHashToJson (nibbles : Nat) (v : Nat) : Json :=
  .str (String.mk ('0' :: 'x' :: toHexFixed nibbles v))

/-- Serde deserialization of a fixed-hash value (impl-serde): requires a
string with the `0x` prefix and exactly the right number of hex digits. -/
def fixedHashFromJson (nibbles : Nat) : Json → SerdeResult Nat
  | .str s =>
    match s.data with
    | c0 :: c1 :: body =>
      if c0 = '0' ∧ c1 = 'x' then
        if body.length = nibbles then
          match parseHexChars body 0 with
          | some v => .ok v
          | none => .err "invalid hex character"
        else .err "invalid length"
      else .err "expected 0x prefix"
    | _ => .err "expected 0x prefix"
  | _ => .err "invalid type: expected a hex string"

/-- The fixed-hash `FromStr` used by `Address::from_str` in
`NftId::deserialize`: an optional `0x` prefix, then exactly 40 hex
digits. -/
def addressFromStr (s : String) : Option Address :=
  let body := match s.data with
    | '0' :: 'x' :: r => r
    | r => r
  if body.length = 40 then parseHexChars body 0 else none

/-! ## Timestamps

`DateTime<Utc>` (chrono) is modelled by its timestamp: whole seconds
since the Unix epoch plus a nanosecond subsecond part.  Civil-date
arithmetic follows the standard days-from-civil algorithm, which is what
chrono's calendar computes.
-/

/-- Internal UTC timestamp representation (`chrono::DateTime<Utc>`):
seconds since the Unix epoch (the value of `.timestamp()`) and the
nanosecond subsecond part. -/
structure DateTimeUtc where
  secs : Int
  nanos : Nat
deriving DecidableEq

/-- Proleptic-Gregorian leap-year test. -/
def isLeapYear (y : Int) : Bool :=
  y % 4 == 0 && (y % 100 != 0 || y % 400 == 0)

/-- Number of days in a month of the proleptic Gregorian calendar. -/
def daysInMonth (y : Int) (m : Nat) : Nat :=
  match m with
  | 1 => 31
  | 2 => if isLeapYear y then 29 else 28
  | 3 => 31
  | 4 => 30
  | 5 => 31
  | 6 => 30
  | 7 => 31
  | 8 => 31
  | 9 => 30
  | 10 => 31
  | 11 => 30
  | 12 => 31
  | _ => 0

/-- Days from the Unix epoch to the civil date `y-m-d` (days-from-civil,
the computation underlying chrono's calendar). -/
def daysFromCivil (y : Int) (m d : Nat) : Int :=
  let yAdj : Int := if m ≤ 2 then y - 1 else y
  let era : Int := Int.fdiv yAdj 400
  let yoe : Int := yAdj - era * 400
  let mp : Nat := (m + 9) % 12
  let doy : Int := (153 * (mp : Int) + 2) / 5 + (d : Int) - 1
  let doe : Int := yoe * 365 + yoe / 4 - yoe / 100 + doy
  era * 146097 + doe - 719468

/-- Smallest timestamp representable by a `chrono::NaiveDateTime`
(midnight on January 1 of year -262144, chrono's `MIN_YEAR`). -/
def chronoMinTimestamp : Int := 86400 * daysFromCivil (-262144) 1 1

/-- Largest timestamp representable by a `chrono::NaiveDateTime`
(the last second of December 31 of year 262143, chrono's `MAX_YEAR`). -/
def chronoMaxTimestamp : Int := 86400 * daysFromCivil 262143 12 31 + 86399

/-- Model of `chrono::NaiveDateTime::from_timestamp_opt(secs, 0)` (as a
UTC instant): defined exactly on chrono's representable range. -/
def fromTimestampOpt (secs : Int) : Option DateTimeUtc :=
  if chronoMinTimestamp ≤ secs ∧ secs ≤ chronoMaxTimestamp then
    some ⟨secs, 0⟩
  else none

/-- Parse exactly `n` decimal digit characters into a number, returning
the remaining characters. -/
def parseFixedDigits : Nat → Nat → List Char → Option (Nat × List Char)
  | 0, acc, cs => some (acc, cs)
  | n + 1, acc, cs =>
    match cs with
    | [] => none
    | c :: rest =>
      if '0' ≤ c ∧ c ≤ '9' then parseFixedDigits n (acc * 10 + (c.toNat - 48)) rest
      else none

/-- Collect leading decimal digits as fractional nanoseconds: the first
nine digits are significant, further digits are truncated (as chrono
does). -/
def parseFractionNanos : List Char → Nat → Nat → (Nat × List Char)
  | [], acc, scale => (acc * 10 ^ scale, [])
  | c :: rest, acc, scale =>
    if '0' ≤ c ∧ c ≤ '9' then
      if scale = 0 then parseFractionNanos rest acc 0
      else parseFractionNanos rest (acc * 10 + (c.toNat - 48)) (scale - 1)
    else (acc * 10 ^ scale, c :: rest)

/-- Parse the offset tail of an RFC 3339 string: `Z` or `±hh:mm`.
Returns the offset in seconds; the whole input must be consumed. -/
def parseRFC3339Offset : List Char → Option Int
  | ['Z'] => some 0
  | ['z'] => some 0
  | sign :: cs =>
    if sign = '+' ∨ sign = '-' then
      match parseFixedDigits 2 0 cs with
      | none => none
      | some (oh, cs1) =>
        match cs1 with
        | ':' :: cs2 =>
          match parseFixedDigits 2 0 cs2 with
          | none => none
          | some (om, cs3) =>
            if cs3 = [] ∧ oh ≤ 23 ∧ om ≤ 59 then
              let magnitude : Int := oh * 3600 + om * 60
              some (if sign = '+' then magnitude else -magnitude)
            else none
        | _ => none
    else none
  | _ => none

/-- An RFC 3339 date-time with explicit offset,
`YYYY-MM-DDTHH:MM:SS[.frac](Z|±hh:mm)`, as accepted by chrono's
`DateTime` parsing (the derived `Deserialize` for `DateTime<Utc>`);
normalized to UTC.  Leap seconds are not modelled (no claim uses them). -/
def parseRFC3339 (s : String) : Option DateTimeUtc :=
  match parseFixedDigits 4 0 s.data with
  | none => none
  | some (y, cs1) =>
    match cs1 with
    | '-' :: cs2 =>
      match parseFixedDigits 2 0 cs2 with
      | none => none
      | some (mo, cs3) =>
        match cs3 with
        | '-' :: cs4 =>
          match parseFixedDigits 2 0 cs4 with
          | none => none
          | some (d, cs5) =>
            match cs5 with
            | 'T' :: cs6 =>
              match parseFixedDigits 2 0 cs6 with
              | none => none
              | some (h, cs7) =>
                match cs7 with
                | ':' :: cs8 =>
                  match parseFixedDigits 2 0 cs8 with
                  | none => none
                  | some (mi, cs9) =>
                    match cs9 with
                    | ':' :: cs10 =>
                      match parseFixedDigits 2 0 cs10 with
                      | none => none
                      | some (sec, cs11) =>
                        let (nanos, cs12) :=
                          match cs11 with
                          | '.' :: c :: rest =>
                            if '0' ≤ c ∧ c ≤ '9' then
                              parseFractionNanos (c :: rest) 0 9
                            else (0, cs11)
                          | _ => (0, cs11)
                        match parseRFC3339Offset cs12 with
                        | none => none
                        | some off =>
                          if 1 ≤ mo ∧ mo ≤ 12 ∧ 1 ≤ d ∧ d ≤ daysInMonth y mo ∧
                              h ≤ 23 ∧ mi ≤ 59 ∧ sec ≤ 59 then
                            let localSecs : Int :=
                              86400 * daysFromCivil y mo d + h * 3600 + mi * 60 + sec
                            some ⟨localSecs - off, nanos⟩
                          else none
                    | _ => none
                | _ => none
            | _ => none
        | _ => none
    | _ => none

/-- Serde deserializer for a plain `chrono::DateTime<Utc>` field: an RFC
3339 string with explicit offset. -/
def datetimeUtcFromJson : Json → SerdeResult DateTimeUtc
  | .str s =>
    match parseRFC3339 s with
    | some dt => .ok dt
    | none => .err "invalid RFC 3339 date-time"
  | _ => .err "invalid type: expected a formatted date and time string"

/-! ## Chain enumeration (`schema.rs`, mod chain) -/

/-- Network an item is on (`schema::Chain`). -/
inductive Chain where
  | Avalanche
  | Base
  | Bsc
  | Ethereum
  | Optimism
  | Arbitrum
  | ArbitrumNova
  | Polygon
  | Klaytn
  | Solana
  | Goerli
  | Mumbai
  | Baobab
  | Zora
deriving DecidableEq

/-- Source `impl FromStr for Chain`: the wire-string match arms, with
everything else an error.  (Note: the source has no `"goerli"` arm.) -/
def Chain.from_str (s : String) : Option Chain :=
  match s with
  | "avalanche" => some .Avalanche
  | "base" => some .Base
  | "bsc" => some .Bsc
  | "ethereum" => some .Ethereum
  | "optimism" => some .Optimism
  | "arbitrum" => some .Arbitrum
  | "arbitrum_nova" => some .ArbitrumNova
  | "matic" => some .Polygon
  | "klaytn" => some .Klaytn
  | "solana" => some .Solana
  | "mumbai" => some .Mumbai
  | "baobab" => some .Baobab
  | "zora" => some .Zora
  | _ => none

/-- Source `impl fmt::Display for Chain`: the canonical wire string of
each value (Polygon renders as `"matic"`). -/
def Chain.display : Chain → String
  | .Avalanche => "avalanche"
  | .Base => "base"
  | .Bsc => "bsc"
  | .Ethereum => "ethereum"
  | .Optimism => "optimism"
  | .Arbitrum => "arbitrum"
  | .ArbitrumNova => "arbitrum_nova"
  | .Polygon => "matic"
  | .Klaytn => "klaytn"
  | .Solana => "solana"
  | .Mumbai => "mumbai"
  | .Baobab => "baobab"
  | .Goerli => "goerli"
  | .Zora => "zora"

/-- Serde tag of each `Chain` value under
`#[serde(tag = "name", rename_all = "lowercase")]` with the explicit
renames `"matic"` (Polygon) and `"arbitrum_nova"` (ArbitrumNova). -/
def Chain.serdeTag : Chain → String
  | .Avalanche => "avalanche"
  | .Base => "base"
  | .Bsc => "bsc"
  | .Ethereum => "ethereum"
  | .Optimism => "optimism"
  | .Arbitrum => "arbitrum"
  | .ArbitrumNova => "arbitrum_nova"
  | .Polygon => "matic"
  | .Klaytn => "klaytn"
  | .Solana => "solana"
  | .Goerli => "goerli"
  | .Mumbai => "mumbai"
  | .Baobab => "baobab"
  | .Zora => "zora"

/-- Derived serde serialization of `Chain`: an internally tagged object
`\x7b"name": "<tag>"\x7d`. -/
def Chain.toJson (c : Chain) : Json :=
  .obj [("name", .str c.serdeTag)]

/-- Tag dispatch of the derived `Chain` deserializer: the serde tag
matched against the variant tags; unknown tags are a decode error. -/
def Chain.tagDecode (tag : String) : SerdeResult Chain :=
  match tag with
  | "avalanche" => .ok .Avalanche
  | "base" => .ok .Base
  | "bsc" => .ok .Bsc
  | "ethereum" => .ok .Ethereum
  | "optimism" => .ok .Optimism
  | "arbitrum" => .ok .Arbitrum
  | "arbitrum_nova" => .ok .ArbitrumNova
  | "matic" => .ok .Polygon
  | "klaytn" => .ok .Klaytn
  | "solana" => .ok .Solana
  | "goerli" => .ok .Goerli
  | "mumbai" => .ok .Mumbai
  | "baobab" => .ok .Baobab
  | "zora" => .ok .Zora
  | _ => .err "unknown variant of Chain"

/-- Derived serde deserialization of `Chain`: reads the `name` tag field
and matches it against the variant tags. -/
def Chain.fromJson (j : Json) : SerdeResult Chain :=
  match j with
  | .obj fs =>
    match jsonLookup fs "name" with
    | none => .err "missing field name"
    | some (.str tag) => Chain.tagDecode tag
    | some _ => .err "invalid type: tag must be a string"
  | _ => .err "invalid type: expected a map"

/-! ## NftId (`schema.rs`) -/

/-- Model of the external `url::Url` collaborator: a wrapper around the
raw text.  No claim observes URL structure; parsing is modelled as
accepting any string containing `"://"`. -/
structure Url where
  raw : String
deriving DecidableEq

/-- Abstract model of `url::Url` parsing (external collaborator). -/
def Url.parse (s : String) : Option Url :=
  if (s.splitOn "://").length ≥ 2 then some ⟨s⟩ else none

/-- Serde deserializer for a `url::Url` field. -/
def urlFromJson : Json → SerdeResult Url
  | .str s =>
    match Url.parse s with
    | some u => .ok u
    | none => .err "invalid url"
  | _ => .err "invalid type: expected a string"

/-- Identifier of an NFT (`schema::NftId`). -/
structure NftId where
  network : Chain
  address : Address
  id : String
deriving DecidableEq

/-- Rust `s.splitn(3, '/')`: characters of the first segment, plus the
rest after a separating slash when one exists. -/
def takeUntilSlash : List Char → List Char × Option (List Char)
  | [] => ([], none)
  | '/' :: r => ([], some r)
  | c :: r =>
    let (seg, rest) := takeUntilSlash r
    (c :: seg, rest)

/-- Rust `s.splitn(3, '/')` collected to a list: at most three segments,
the third carrying the unsplit remainder. -/
def splitn3 (s : String) : List String :=
  let (a, r1) := takeUntilSlash s.data
  match r1 with
  | none => [String.mk a]
  | some r =>
    let (b, r2) := takeUntilSlash r
    match r2 with
    | none => [String.mk a, String.mk b]
    | some rest => [String.mk a, String.mk b, String.mk rest]

/-- Source `NftId::deserialize`: a string split into at most three
segments `network/address/id`.  The network and address segments are
checked with structured errors, but the id segment is taken with
`.unwrap()`, which panics when only two segments are present. -/
def NftId.deserialize (j : Json) : SerdeResult NftId :=
  match j with
  | .str s =>
    match splitn3 s with
    | [n] =>
      match Chain.from_str n with
      | none => .err "invalid network"
      | some _ => .err "expected address"
    | [n, a] =>
      match Chain.from_str n with
      | none => .err "invalid network"
      | some _ =>
        match addressFromStr a with
        | none => .err "invalid address"
        | some _ => .panicked
    | [n, a, i] =>
      match Chain.from_str n with
      | none => .err "invalid network"
      | some network =>
        match addressFromStr a with
        | none => .err "invalid address"
        | some address => .ok ⟨network, address, i⟩
    | _ => .err "expected network"
  | _ => .err "invalid type: expected a string"

/-! ## Field codecs (`schema.rs` modules) -/

namespace address_fromjson

/-- Source `address_fromjson::deserialize`: unwraps the single-field
object `\x7b"address": ...\x7d` produced by the upstream protocol. -/
def deserialize (j : Json) : SerdeResult Address :=
  match j with
  | .obj fs => reqField fs "address" (fixedHashFromJson 40)
  | _ => .err "invalid type: expected a map"

/-- Source `address_fromjson::serialize`: re-wraps the address in the
single-field object. -/
def serialize (a : Address) : Json :=
  .obj [("address", fixedHashToJson 40 a)]

end address_fromjson

namespace address_fromjson_opt

/-- Source `address_fromjson_opt::deserialize`: `null` is `None`,
otherwise the single-field object is unwrapped. -/
def deserialize (j : Json) : SerdeResult (Option Address) :=
  match j with
  | .null => .ok none
  | .obj fs => (reqField fs "address" (fixedHashFromJson 40)).map some
  | _ => .err "invalid type: expected a map"

/-- Source `address_fromjson_opt::serialize`: `None` is `null`. -/
def serialize : Option Address → Json
  | none => .null
  | some a => .obj [("address", fixedHashToJson 40 a)]

end address_fromjson_opt

namespace u256_fromstr_radix_10

/-- Source `u256_fromstr_radix_10::deserialize`: only a string is
accepted (the visitor implements `visit_str` alone), parsed with
`U256::from_dec_str`. -/
def deserialize (j : Json) : SerdeResult Nat :=
  match j with
  | .str s =>
    match decDigitsGo (2 ^ 256 - 1) 0 s.data with
    | some v => .ok v
    | none => .err "invalid decimal string"
  | _ => .err "invalid type: a string"

/-- Source `u256_fromstr_radix_10::serialize`
(`serializer.collect_str(&value)`): the canonical decimal rendering. -/
def serialize (v : Nat) : Json :=
  .str (natToDecStr v)

end u256_fromstr_radix_10

/-- Value of a Rust `f64` field.  IEEE-754 rounding is abstracted: a
finite value is kept as the parsed decimal mantissa and exponent.  No
claim observes f64 values; this type only keeps the payment-token
decoders total and faithful in shape. -/
inductive RustF64 where
  | finite (mantissa : Int) (exp10 : Int)
  | infinite (negative : Bool)
  | notANumber
deriving DecidableEq

/-- Leading decimal digits of a float literal: the accumulated value,
the digit count, and the remaining characters. -/
def floatDigits : List Char → Nat → Nat × Nat × List Char
  | [], acc => (acc, 0, [])
  | c :: rest, acc =>
    if '0' ≤ c ∧ c ≤ '9' then
      let (v, k, r) := floatDigits rest (acc * 10 + (c.toNat - 48))
      (v, k + 1, r)
    else (acc, 0, c :: rest)

/-- Decimal float grammar of Rust `str::parse::<f64>()` (external std):
optional sign, digits with optional fraction, optional exponent.
Special values (`inf`, `NaN`) are omitted and IEEE-754 rounding is
abstracted; no claim exercises float values. -/
def parseF64String (s : String) : Option RustF64 :=
  let (neg, cs0) :=
    match s.data with
    | '-' :: r => (true, r)
    | '+' :: r => (false, r)
    | r => (false, r)
  match cs0 with
  | [] => none
  | c :: _ =>
    if ¬('0' ≤ c ∧ c ≤ '9') then none
    else
      let (intPart, _, cs1) := floatDigits cs0 0
      let (mant, scale, cs2) :=
        match cs1 with
        | '.' :: d :: rest =>
          if '0' ≤ d ∧ d ≤ '9' then
            let (v, k, r) := floatDigits (d :: rest) intPart
            (v, k, r)
          else (intPart, 0, cs1)
        | _ => (intPart, 0, cs1)
      let (expVal, cs3) :=
        match cs2 with
        | e :: rest =>
          if e = 'e' ∨ e = 'E' then
            let (eneg, rest1) :=
              match rest with
              | '-' :: r => (true, r)
              | '+' :: r => (false, r)
              | r => (false, r)
            match rest1 with
            | d :: _ =>
              if '0' ≤ d ∧ d ≤ '9' then
                let (ev, _, rest2) := floatDigits rest1 0
                (some (if eneg then -(ev : Int) else (ev : Int)), rest2)
              else (none, cs2)
            | [] => (none, cs2)
          else (none, cs2)
        | [] => (none, cs2)
      match expVal, cs3 with
      | some e, [] =>
        some (.finite (if neg then -(mant : Int) else (mant : Int)) (e - (scale : Int)))
      | none, [] =>
        if cs2 = [] then
          some (.finite (if neg then -(mant : Int) else (mant : Int)) (-(scale : Int)))
        else none
      | _, _ => none

namespace f64_fromstring

/-- Source `f64_fromstring::deserialize`: an untagged union trying the
string arm first (parsed as a float) and the raw number arm second. -/
def deserialize (j : Json) : SerdeResult RustF64 :=
  match j with
  | .str s =>
    match parseF64String s with
    | some v => .ok v
    | none => .err "invalid float"
  | .num n => .ok (.finite n 0)
  | _ => .err "data did not match any variant of untagged enum StringFloat"

end f64_fromstring

namespace timestamp_to_date

/-- Source `timestamp_to_date::deserialize`.  The untagged helper enum
lists `Str(String)` before `Datetime(DateTime<Utc>)`, so every JSON
string matches the string arm, where the source runs
`value.parse::<i64>().unwrap()` followed by
`NaiveDateTime::from_timestamp_opt(..).unwrap()`: a string that is not a
decimal `i64` in chrono's range panics.  Non-strings fail both arms
(chrono's `DateTime<Utc>` deserializer accepts only formatted strings),
so they are a decode error. -/
def deserialize (j : Json) : SerdeResult DateTimeUtc :=
  match j with
  | .str s =>
    match parseI64 s with
    | none => .panicked
    | some secs =>
      match fromTimestampOpt secs with
      | none => .panicked
      | some dt => .ok dt
  | _ => .err "data did not match any variant of untagged enum StringFloat"

/-- Source `timestamp_to_date::serialize`
(`value.timestamp().to_string()`): the epoch seconds rendered as a
decimal string. -/
def serialize (dt : DateTimeUtc) : Json :=
  .str (intToDecStr dt.secs)

end timestamp_to_date

/-! ## Shared schema substructures (`schema.rs`) -/

/-- A collection on OpenSea (`schema::Collection`), carried on the wire
as the single-field object `\x7b"slug": ...\x7d`. -/
structure Collection where
  slug : String
deriving DecidableEq

/-- Source `impl Deserialize for Collection` via the `Inner` helper. -/
def Collection.deserialize (j : Json) : SerdeResult Collection :=
  match j with
  | .obj fs => (reqField fs "slug" decodeString).map Collection.mk
  | _ => .err "invalid type: expected a map"

/-- Basic metadata trait entry (`schema::Trait`). -/
structure Trait where
  trait_type : String
  value : Option String
  display_type : Option String
  max_value : Option Nat
  trait_count : Option Nat
  order : Option Nat
deriving DecidableEq

/-- Derived deserializer for `Trait`. -/
def Trait.deserialize (j : Json) : SerdeResult Trait :=
  match j with
  | .obj fs => do
    let trait_type ← reqField fs "trait_type" decodeString
    let value ← optField fs "value" decodeString
    let display_type ← optField fs "display_type" decodeString
    let max_value ← optField fs "max_value" decodeU64
    let trait_count ← optField fs "trait_count" decodeU64
    let order ← optField fs "order" decodeU64
    pure ⟨trait_type, value, display_type, max_value, trait_count, order⟩
  | _ => .err "invalid type: expected a map"

/-- Basic metadata of an item (`schema::Metadata`); every field is
optional. -/
structure Metadata where
  animation_url : Option Url
  background_color : Option String
  description : Option String
  image_preview_url : Option Url
  image_url : Option Url
  metadata_url : Option Url
  external_link : Option Url
  name : Option String
  traits : Option (List Trait)
deriving DecidableEq

/-- Derived deserializer for `Metadata`. -/
def Metadata.deserialize (j : Json) : SerdeResult Metadata :=
  match j with
  | .obj fs => do
    let animation_url ← optField fs "animation_url" urlFromJson
    let background_color ← optField fs "background_color" decodeString
    let description ← optField fs "description" decodeString
    let image_preview_url ← optField fs "image_preview_url" urlFromJson
    let image_url ← optField fs "image_url" urlFromJson
    let metadata_url ← optField fs "metadata_url" urlFromJson
    let external_link ← optField fs "external_link" urlFromJson
    let name ← optField fs "name" decodeString
    let traits ← optField fs "traits" (decodeList Trait.deserialize)
    pure ⟨animation_url, background_color, description, image_preview_url,
          image_url, metadata_url, external_link, name, traits⟩
  | _ => .err "invalid type: expected a map"

/-- Context about an item (`schema::Item`); every field is optional. -/
structure Item where
  nft_id : Option NftId
  permalink : Option Url
  chain : Option Chain
  metadata : Option Metadata
deriving DecidableEq

/-- Derived deserializer for `Item`. -/
def Item.deserialize (j : Json) : SerdeResult Item :=
  match j with
  | .obj fs => do
    let nft_id ← optField fs "nft_id" NftId.deserialize
    let permalink ← optField fs "permalink" urlFromJson
    let chain ← optField fs "chain" Chain.fromJson
    let metadata ← optField fs "metadata" Metadata.deserialize
    pure ⟨nft_id, permalink, chain, metadata⟩
  | _ => .err "invalid type: expected a map"

/-- Auctioning system used by a listing (`schema::ListingType`),
serialized lowercase. -/
inductive ListingType where
  | English
  | Dutch
deriving DecidableEq

/-- Derived deserializer for `ListingType`. -/
def ListingType.deserialize (j : Json) : SerdeResult ListingType :=
  match j with
  | .str "english" => .ok .English
  | .str "dutch" => .ok .Dutch
  | .str _ => .err "unknown variant of ListingType"
  | _ => .err "invalid type: expected a string"

/-- Details of a transaction (`schema::Transaction`). -/
structure Transaction where
  hash : H256Val
  timestamp : DateTimeUtc
deriving DecidableEq

/-- Derived deserializer for `Transaction`. -/
def Transaction.deserialize (j : Json) : SerdeResult Transaction :=
  match j with
  | .obj fs => do
    let hash ← reqField fs "hash" (fixedHashFromJson 64)
    let timestamp ← reqField fs "timestamp" datetimeUtcFromJson
    pure ⟨hash, timestamp⟩
  | _ => .err "invalid type: expected a map"

/-- Token used for payment (`schema::PaymentToken`). -/
structure PaymentToken where
  address : Address
  decimals : Nat
  eth_price : RustF64
  name : String
  symbol : String
  usd_price : RustF64
deriving DecidableEq

/-- Derived deserializer for `PaymentToken`. -/
def PaymentToken.deserialize (j : Json) : SerdeResult PaymentToken :=
  match j with
  | .obj fs => do
    let address ← reqField fs "address" (fixedHashFromJson 40)
    let decimals ← reqField fs "decimals" decodeU64
    let eth_price ← reqField fs "eth_price" f64_fromstring.deserialize
    let name ← reqField fs "name" decodeString
    let symbol ← reqField fs "symbol" decodeString
    let usd_price ← reqField fs "usd_price" f64_fromstring.deserialize
    pure ⟨address, decimals, eth_price, name, symbol, usd_price⟩
  | _ => .err "invalid type: expected a map"

/-- A consideration line item (`schema::Consideration`), camelCase on
the wire. -/
structure Consideration where
  item_type : Nat
  token : Address
  identifier_or_criteria : String
  start_amount : String
  end_amount : Option String
  recipient : Address
deriving DecidableEq

/-- Derived deserializer for `Consideration`. -/
def Consideration.deserialize (j : Json) : SerdeResult Consideration :=
  match j with
  | .obj fs => do
    let item_type ← reqField fs "itemType" decodeU64
    let token ← reqField fs "token" (fixedHashFromJson 40)
    let identifier_or_criteria ← reqField fs "identifierOrCriteria" decodeString
    let start_amount ← reqField fs "startAmount" decodeString
    let end_amount ← optField fs "endAmount" decodeString
    let recipient ← reqField fs "recipient" (fixedHashFromJson 40)
    pure ⟨item_type, token, identifier_or_criteria, start_amount, end_amount, recipient⟩
  | _ => .err "invalid type: expected a map"

/-- An offer line item (`schema::Offer`), camelCase on the wire. -/
structure Offer where
  end_amount : String
  identifier_or_criteria : String
  item_type : Nat
  start_amount : String
  token : Address
deriving DecidableEq

/-- Derived deserializer for `Offer`. -/
def Offer.deserialize (j : Json) : SerdeResult Offer :=
  match j with
  | .obj fs => do
    let end_amount ← reqField fs "endAmount" decodeString
    let identifier_or_criteria ← reqField fs "identifierOrCriteria" decodeString
    let item_type ← reqField fs "itemType" decodeU64
    let start_amount ← reqField fs "startAmount" decodeString
    let token ← reqField fs "token" (fixedHashFromJson 40)
    pure ⟨end_amount, identifier_or_criteria, item_type, start_amount, token⟩
  | _ => .err "invalid type: expected a map"

/-- Protocol execution parameters (`schema::Parameters`), camelCase on
the wire; the start/end times use the `timestamp_to_date` codec. -/
structure Parameters where
  conduit_key : String
  consideration : List Consideration
  counter : Json
  end_time : DateTimeUtc
  offer : List Offer
  offerer : Address
  order_type : Nat
  salt : String
  start_time : DateTimeUtc
  total_original_consideration_items : Nat
  zone : Address
  zone_hash : String

/-- Derived deserializer for `Parameters`. -/
def Parameters.deserialize (j : Json) : SerdeResult Parameters :=
  match j with
  | .obj fs => do
    let conduit_key ← reqField fs "conduitKey" decodeString
    let consideration ← reqField fs "consideration" (decodeList Consideration.deserialize)
    let counter ← reqField fs "counter" decodeValue
    let end_time ← reqField fs "endTime" timestamp_to_date.deserialize
    let offer ← reqField fs "offer" (decodeList Offer.deserialize)
    let offerer ← reqField fs "offerer" (fixedHashFromJson 40)
    let order_type ← reqField fs "orderType" decodeU64
    let salt ← reqField fs "salt" decodeString
    let start_time ← reqField fs "startTime" timestamp_to_date.deserialize
    let total_original_consideration_items ←
      reqField fs "totalOriginalConsiderationItems" decodeU64
    let zone ← reqField fs "zone" (fixedHashFromJson 40)
    let zone_hash ← reqField fs "zoneHash" decodeString
    pure ⟨conduit_key, consideration, counter, end_time, offer, offerer, order_type,
          salt, start_time, total_original_consideration_items, zone, zone_hash⟩
  | _ => .err "invalid type: expected a map"

/-- Protocol data for offers and transfers (`schema::ProtocolData`). -/
structure ProtocolData where
  parameters : Parameters
  signature : Option String

/-- Derived deserializer for `ProtocolData`. -/
def ProtocolData.deserialize (j : Json) : SerdeResult ProtocolData :=
  match j with
  | .obj fs => do
    let parameters ← reqField fs "parameters" Parameters.deserialize
    let signature ← optField fs "signature" decodeString
    pure ⟨parameters, signature⟩
  | _ => .err "invalid type: expected a map"

/-- Collection criteria of a collection/trait offer
(`schema::CollectionCriteria`). -/
structure CollectionCriteria where
  slug : String
deriving DecidableEq

/-- Derived deserializer for `CollectionCriteria`. -/
def CollectionCriteria.deserialize (j : Json) : SerdeResult CollectionCriteria :=
  match j with
  | .obj fs => (reqField fs "slug" decodeString).map CollectionCriteria.mk
  | _ => .err "invalid type: expected a map"

/-- Trait criteria of a trait offer (`schema::TraitCriteria`). -/
structure TraitCriteria where
  trait_name : String
  trait_type : String
deriving DecidableEq

/-- Derived deserializer for `TraitCriteria`. -/
def TraitCriteria.deserialize (j : Json) : SerdeResult TraitCriteria :=
  match j with
  | .obj fs => do
    let trait_name ← reqField fs "trait_name" decodeString
    let trait_type ← reqField fs "trait_type" decodeString
    pure ⟨trait_name, trait_type⟩
  | _ => .err "invalid type: expected a map"

/-! ## The eleven payload records (`schema.rs`) -/

/-- Payload data for `Payload::ItemListed` (`schema::ItemListedData`);
note that `quantity` and `taker` are commented out in the source. -/
structure ItemListedData where
  collection : Collection
  item : Item
  event_timestamp : DateTimeUtc
  base_price : Nat
  expiration_date : DateTimeUtc
  is_private : Bool
  listing_date : DateTimeUtc
  listing_type : Option ListingType
  maker : Address
  order_hash : H256Val
  payment_token : PaymentToken
  protocol_data : ProtocolData

/-- Derived deserializer for `ItemListedData`. -/
def ItemListedData.deserialize (j : Json) : SerdeResult ItemListedData :=
  match j with
  | .obj fs => do
    let collection ← reqField fs "collection" Collection.deserialize
    let item ← reqField fs "item" Item.deserialize
    let event_timestamp ← reqField fs "event_timestamp" datetimeUtcFromJson
    let base_price ← reqField fs "base_price" u256_fromstr_radix_10.deserialize
    let expiration_date ← reqField fs "expiration_date" datetimeUtcFromJson
    let is_private ← reqField fs "is_private" decodeBool
    let listing_date ← reqField fs "listing_date" datetimeUtcFromJson
    let listing_type ← optField fs "listing_type" ListingType.deserialize
    let maker ← reqField fs "maker" address_fromjson.deserialize
    let order_hash ← reqField fs "order_hash" (fixedHashFromJson 64)
    let payment_token ← reqField fs "payment_token" PaymentToken.deserialize
    let protocol_data ← reqField fs "protocol_data" ProtocolData.deserialize
    pure ⟨collection, item, event_timestamp, base_price, expiration_date, is_private,
          listing_date, listing_type, maker, order_hash, payment_token, protocol_data⟩
  | _ => .err "invalid type: expected a map"

/-- Payload data for `Payload::ItemSold` (`schema::ItemSoldData`). -/
structure ItemSoldData where
  collection : Collection
  item : Item
  closing_date : DateTimeUtc
  event_timestamp : DateTimeUtc
  is_private : Bool
  listing_type : Option ListingType
  maker : Address
  order_hash : H256Val
  payment_token : PaymentToken
  quantity : Nat
  sale_price : Nat
  taker : Address
  transaction : Transaction

/-- Derived deserializer for `ItemSoldData`. -/
def ItemSoldData.deserialize (j : Json) : SerdeResult ItemSoldData :=
  match j with
  | .obj fs => do
    let collection ← reqField fs "collection" Collection.deserialize
    let item ← reqField fs "item" Item.deserialize
    let closing_date ← reqField fs "closing_date" datetimeUtcFromJson
    let event_timestamp ← reqField fs "event_timestamp" datetimeUtcFromJson
    let is_private ← reqField fs "is_private" decodeBool
    let listing_type ← optField fs "listing_type" ListingType.deserialize
    let maker ← reqField fs "maker" address_fromjson.deserialize
    let order_hash ← reqField fs "order_hash" (fixedHashFromJson 64)
    let payment_token ← reqField fs "payment_token" PaymentToken.deserialize
    let quantity ← reqField fs "quantity" decodeU64
    let sale_price ← reqField fs "sale_price" u256_fromstr_radix_10.deserialize
    let taker ← reqField fs "taker" address_fromjson.deserialize
    let transaction ← reqField fs "transaction" Transaction.deserialize
    pure ⟨collection, item, closing_date, event_timestamp, is_private, listing_type,
          maker, order_hash, payment_token, quantity, sale_price, taker, transaction⟩
  | _ => .err "invalid type: expected a map"

/-- Payload data for `Payload::ItemTransferred`
(`schema::ItemTransferredData`). -/
structure ItemTransferredData where
  collection : Collection
  event_timestamp : DateTimeUtc
  from_account : Address
  item : Item
  to_account : Address
  transaction : Option Transaction

/-- Derived deserializer for `ItemTransferredData`. -/
def ItemTransferredData.deserialize (j : Json) : SerdeResult ItemTransferredData :=
  match j with
  | .obj fs => do
    let collection ← reqField fs "collection" Collection.deserialize
    let event_timestamp ← reqField fs "event_timestamp" datetimeUtcFromJson
    let from_account ← reqField fs "from_account" address_fromjson.deserialize
    let item ← reqField fs "item" Item.deserialize
    let to_account ← reqField fs "to_account" address_fromjson.deserialize
    let transaction ← optField fs "transaction" Transaction.deserialize
    pure ⟨collection, event_timestamp, from_account, item, to_account, transaction⟩
  | _ => .err "invalid type: expected a map"

/-- Payload data for `Payload::ItemMetadataUpdated`
(`schema::ItemMetadataUpdatedData`). -/
structure ItemMetadataUpdatedData where
  collection : Collection
  item : Item
deriving DecidableEq

/-- Derived deserializer for `ItemMetadataUpdatedData`. -/
def ItemMetadataUpdatedData.deserialize (j : Json) : SerdeResult ItemMetadataUpdatedData :=
  match j with
  | .obj fs => do
    let collection ← reqField fs "collection" Collection.deserialize
    let item ← reqField fs "item" Item.deserialize
    pure ⟨collection, item⟩
  | _ => .err "invalid type: expected a map"

/-- Payload data for `Payload::ItemCancelled`
(`schema::ItemCancelledData`). -/
structure ItemCancelledData where
  base_price : Nat
  collection : Collection
  event_timestamp : DateTimeUtc
  is_private : Bool
  item : Item
  listing_date : Option DateTimeUtc
  listing_type : Option ListingType
  order_hash : H256Val
  payment_token : PaymentToken
  quantity : Nat
  transaction : Option Transaction

/-- Derived deserializer for `ItemCancelledData`. -/
def ItemCancelledData.deserialize (j : Json) : SerdeResult ItemCancelledData :=
  match j with
  | .obj fs => do
    let base_price ← reqField fs "base_price" u256_fromstr_radix_10.deserialize
    let collection ← reqField fs "collection" Collection.deserialize
    let event_timestamp ← reqField fs "event_timestamp" datetimeUtcFromJson
    let is_private ← reqField fs "is_private" decodeBool
    let item ← reqField fs "item" Item.deserialize
    let listing_date ← optField fs "listing_date" datetimeUtcFromJson
    let listing_type ← optField fs "listing_type" ListingType.deserialize
    let order_hash ← reqField fs "order_hash" (fixedHashFromJson 64)
    let payment_token ← reqField fs "payment_token" PaymentToken.deserialize
    let quantity ← reqField fs "quantity" decodeU64
    let transaction ← optField fs "transaction" Transaction.deserialize
    pure ⟨base_price, collection, event_timestamp, is_private, item, listing_date,
          listing_type, order_hash, payment_token, quantity, transaction⟩
  | _ => .err "invalid type: expected a map"

/-- Payload data for `Payload::ItemReceivedOffer`
(`schema::ItemReceivedOfferData`). -/
structure ItemReceivedOfferData where
  collection : Collection
  item : Item
  event_timestamp : DateTimeUtc
  base_price : Nat
  created_date : DateTimeUtc
  expiration_date : DateTimeUtc
  maker : Address
  order_hash : H256Val
  payment_token : PaymentToken
  quantity : Nat
  taker : Option Address

/-- Derived deserializer for `ItemReceivedOfferData`; `taker` uses the
optional-address codec with a default. -/
def ItemReceivedOfferData.deserialize (j : Json) : SerdeResult ItemReceivedOfferData :=
  match j with
  | .obj fs => do
    let collection ← reqField fs "collection" Collection.deserialize
    let item ← reqField fs "item" Item.deserialize
    let event_timestamp ← reqField fs "event_timestamp" datetimeUtcFromJson
    let base_price ← reqField fs "base_price" u256_fromstr_radix_10.deserialize
    let created_date ← reqField fs "created_date" datetimeUtcFromJson
    let expiration_date ← reqField fs "expiration_date" datetimeUtcFromJson
    let maker ← reqField fs "maker" address_fromjson.deserialize
    let order_hash ← reqField fs "order_hash" (fixedHashFromJson 64)
    let payment_token ← reqField fs "payment_token" PaymentToken.deserialize
    let quantity ← reqField fs "quantity" decodeU64
    let taker ←
      match jsonLookup fs "taker" with
      | none => pure none
      | some v => address_fromjson_opt.deserialize v
    pure ⟨collection, item, event_timestamp, base_price, created_date, expiration_date,
          maker, order_hash, payment_token, quantity, taker⟩
  | _ => .err "invalid type: expected a map"

/-- Payload data for `Payload::ItemReceivedBid`
(`schema::ItemReceivedBidData`). -/
structure ItemReceivedBidData where
  collection : Collection
  item : Item
  event_timestamp : DateTimeUtc
  base_price : Nat
  created_date : DateTimeUtc
  expiration_date : DateTimeUtc
  maker : Address
  order_hash : H256Val
  payment_token : PaymentToken
  quantity : Nat
  taker : Option Address

/-- Derived deserializer for `ItemReceivedBidData`. -/
def ItemReceivedBidData.deserialize (j : Json) : SerdeResult ItemReceivedBidData :=
  match j with
  | .obj fs => do
    let collection ← reqField fs "collection" Collection.deserialize
    let item ← reqField fs "item" Item.deserialize
    let event_timestamp ← reqField fs "event_timestamp" datetimeUtcFromJson
    let base_price ← reqField fs "base_price" u256_fromstr_radix_10.deserialize
    let created_date ← reqField fs "created_date" datetimeUtcFromJson
    let expiration_date ← reqField fs "expiration_date" datetimeUtcFromJson
    let maker ← reqField fs "maker" address_fromjson.deserialize
    let order_hash ← reqField fs "order_hash" (fixedHashFromJson 64)
    let payment_token ← reqField fs "payment_token" PaymentToken.deserialize
    let quantity ← reqField fs "quantity" decodeU64
    let taker ←
      match jsonLookup fs "taker" with
      | none => pure none
      | some v => address_fromjson_opt.deserialize v
    pure ⟨collection, item, event_timestamp, base_price, created_date, expiration_date,
          maker, order_hash, payment_token, quantity, taker⟩
  | _ => .err "invalid type: expected a map"

/-- Payload data for `Payload::CollectionOffer`
(`schema::CollectionOfferData`). -/
structure CollectionOfferData where
  asset_contract_criteria : Address
  base_price : Nat
  collection : Collection
  collection_criteria : CollectionCriteria
  created_date : DateTimeUtc
  event_timestamp : DateTimeUtc
  expiration_date : DateTimeUtc
  maker : Address
  order_hash : H256Val
  payment_token : PaymentToken
  protocol_address : Address
  protocol_data : ProtocolData
  quantity : Nat
  taker : Option Address

/-- Derived deserializer for `CollectionOfferData`. -/
def CollectionOfferData.deserialize (j : Json) : SerdeResult CollectionOfferData :=
  match j with
  | .obj fs => do
    let asset_contract_criteria ←
      reqField fs "asset_contract_criteria" address_fromjson.deserialize
    let base_price ← reqField fs "base_price" u256_fromstr_radix_10.deserialize
    let collection ← reqField fs "collection" Collection.deserialize
    let collection_criteria ←
      reqField fs "collection_criteria" CollectionCriteria.deserialize
    let created_date ← reqField fs "created_date" datetimeUtcFromJson
    let event_timestamp ← reqField fs "event_timestamp" datetimeUtcFromJson
    let expiration_date ← reqField fs "expiration_date" datetimeUtcFromJson
    let maker ← reqField fs "maker" address_fromjson.deserialize
    let order_hash ← reqField fs "order_hash" (fixedHashFromJson 64)
    let payment_token ← reqField fs "payment_token" PaymentToken.deserialize
    let protocol_address ← reqField fs "protocol_address" (fixedHashFromJson 40)
    let protocol_data ← reqField fs "protocol_data" ProtocolData.deserialize
    let quantity ← reqField fs "quantity" decodeU64
    let taker ←
      match jsonLookup fs "taker" with
      | none => pure none
      | some v => address_fromjson_opt.deserialize v
    pure ⟨asset_contract_criteria, base_price, collection, collection_criteria,
          created_date, event_timestamp, expiration_date, maker, order_hash,
          payment_token, protocol_address, protocol_data, quantity, taker⟩
  | _ => .err "invalid type: expected a map"

/-- Payload data for `Payload::TraitOffer` (`schema::TraitOfferData`). -/
structure TraitOfferData where
  asset_contract_criteria : Address
  base_price : Nat
  collection : Collection
  collection_criteria : CollectionCriteria
  created_date : DateTimeUtc
  event_timestamp : DateTimeUtc
  expiration_date : DateTimeUtc
  maker : Address
  order_hash : H256Val
  payment_token : PaymentToken
  protocol_address : Address
  protocol_data : ProtocolData
  quantity : Nat
  taker : Option Address
  trait_criteria : TraitCriteria

/-- Derived deserializer for `TraitOfferData`. -/
def TraitOfferData.deserialize (j : Json) : SerdeResult TraitOfferData :=
  match j with
  | .obj fs => do
    let asset_contract_criteria ←
      reqField fs "asset_contract_criteria" address_fromjson.deserialize
    let base_price ← reqField fs "base_price" u256_fromstr_radix_10.deserialize
    let collection ← reqField fs "collection" Collection.deserialize
    let collection_criteria ←
      reqField fs "collection_criteria" CollectionCriteria.deserialize
    let created_date ← reqField fs "created_date" datetimeUtcFromJson
    let event_timestamp ← reqField fs "event_timestamp" datetimeUtcFromJson
    let expiration_date ← reqField fs "expiration_date" datetimeUtcFromJson
    let maker ← reqField fs "maker" address_fromjson.deserialize
    let order_hash ← reqField fs "order_hash" (fixedHashFromJson 64)
    let payment_token ← reqField fs "payment_token" PaymentToken.deserialize
    let protocol_address ← reqField fs "protocol_address" (fixedHashFromJson 40)
    let protocol_data ← reqField fs "protocol_data" ProtocolData.deserialize
    let quantity ← reqField fs "quantity" decodeU64
    let taker ←
      match jsonLookup fs "taker" with
      | none => pure none
      | some v => address_fromjson_opt.deserialize v
    let trait_criteria ← reqField fs "trait_criteria" TraitCriteria.deserialize
    pure ⟨asset_contract_criteria, base_price, collection, collection_criteria,
          created_date, event_timestamp, expiration_date, maker, order_hash,
          payment_token, protocol_address, protocol_data, quantity, taker,
          trait_criteria⟩
  | _ => .err "invalid type: expected a map"

/-- Payload data for `Payload::OrderInvalidate`
(`schema::OrderInvalidateData`): `order_hash` is `Option<H256>`. -/
structure OrderInvalidateData where
  chain : Chain
  collection : Collection
  event_timestamp : DateTimeUtc
  item : Item
  order_hash : Option H256Val
  protocol_address : Address
deriving DecidableEq

/-- Derived deserializer for `OrderInvalidateData`. -/
def OrderInvalidateData.deserialize (j : Json) : SerdeResult OrderInvalidateData :=
  match j with
  | .obj fs => do
    let chain ← reqField fs "chain" Chain.fromJson
    let collection ← reqField fs "collection" Collection.deserialize
    let event_timestamp ← reqField fs "event_timestamp" datetimeUtcFromJson
    let item ← reqField fs "item" Item.deserialize
    let order_hash ← optField fs "order_hash" (fixedHashFromJson 64)
    let protocol_address ← reqField fs "protocol_address" (fixedHashFromJson 40)
    pure ⟨chain, collection, event_timestamp, item, order_hash, protocol_address⟩
  | _ => .err "invalid type: expected a map"

/-- Payload data for `Payload::OrderRevalidate`
(`schema::OrderRevalidateData`): `order_hash` is a required `H256`. -/
structure OrderRevalidateData where
  chain : Chain
  collection : Collection
  event_timestamp : DateTimeUtc
  item : Item
  order_hash : H256Val
  protocol_address : Address
deriving DecidableEq

/-- Derived deserializer for `OrderRevalidateData`. -/
def OrderRevalidateData.deserialize (j : Json) : SerdeResult OrderRevalidateData :=
  match j with
  | .obj fs => do
    let chain ← reqField fs "chain" Chain.fromJson
    let collection ← reqField fs "collection" Collection.deserialize
    let event_timestamp ← reqField fs "event_timestamp" datetimeUtcFromJson
    let item ← reqField fs "item" Item.deserialize
    let order_hash ← reqField fs "order_hash" (fixedHashFromJson 64)
    let protocol_address ← reqField fs "protocol_address" (fixedHashFromJson 40)
    pure ⟨chain, collection, event_timestamp, item, order_hash, protocol_address⟩
  | _ => .err "invalid type: expected a map"

/-! ## Tagged-union payload and stream event (`schema.rs`) -/

/-- Content of a stream message (`schema::Payload`), an
adjacently-tagged union keyed by `event_type` with content in
`payload`. -/
inductive Payload where
  | ItemListed (data : ItemListedData)
  | ItemSold (data : ItemSoldData)
  | ItemTransferred (data : ItemTransferredData)
  | ItemMetadataUpdated (data : ItemMetadataUpdatedData)
  | ItemCancelled (data : ItemCancelledData)
  | ItemReceivedOffer (data : ItemReceivedOfferData)
  | ItemReceivedBid (data : ItemReceivedBidData)
  | CollectionOffer (data : CollectionOfferData)
  | TraitOffer (data : TraitOfferData)
  | OrderInvalidate (data : OrderInvalidateData)
  | OrderRevalidate (data : OrderRevalidateData)

/-- Derived adjacently-tagged deserializer for `Payload`
(`#[serde(tag = "event_type", content = "payload")]`, snake_case
variant names): reads the `event_type` tag, then decodes the `payload`
content with the matching record deserializer; an unrecognized tag is a
decode error. -/
def Payload.deserialize (fs : List (String × Json)) : SerdeResult Payload :=
  match jsonLookup fs "event_type" with
  | none => .err "missing field event_type"
  | some (.str tag) =>
    match tag with
    | "item_listed" => (reqField fs "payload" ItemListedData.deserialize).map .ItemListed
    | "item_sold" => (reqField fs "payload" ItemSoldData.deserialize).map .ItemSold
    | "item_transferred" =>
      (reqField fs "payload" ItemTransferredData.deserialize).map .ItemTransferred
    | "item_metadata_updated" =>
      (reqField fs "payload" ItemMetadataUpdatedData.deserialize).map .ItemMetadataUpdated
    | "item_cancelled" =>
      (reqField fs "payload" ItemCancelledData.deserialize).map .ItemCancelled
    | "item_received_offer" =>
      (reqField fs "payload" ItemReceivedOfferData.deserialize).map .ItemReceivedOffer
    | "item_received_bid" =>
      (reqField fs "payload" ItemReceivedBidData.deserialize).map .ItemReceivedBid
    | "collection_offer" =>
      (reqField fs "payload" CollectionOfferData.deserialize).map .CollectionOffer
    | "trait_offer" => (reqField fs "payload" TraitOfferData.deserialize).map .TraitOffer
    | "order_invalidate" =>
      (reqField fs "payload" OrderInvalidateData.deserialize).map .OrderInvalidate
    | "order_revalidate" =>
      (reqField fs "payload" OrderRevalidateData.deserialize).map .OrderRevalidate
    | _ => .err "unknown variant of Payload"
  | some _ => .err "invalid type: tag must be a string"

/-- Payload of a message received from the websocket
(`schema::StreamEvent`): a `sent_at` timestamp plus a flattened
`Payload`, so the tag and content live in the same object. -/
structure StreamEvent where
  sent_at : DateTimeUtc
  payload : Payload

/-- Derived deserializer for `StreamEvent` (with `#[serde(flatten)]` on
the payload). -/
def StreamEvent.deserialize (j : Json) : SerdeResult StreamEvent :=
  match j with
  | .obj fs => do
    let sent_at ← reqField fs "sent_at" datetimeUtcFromJson
    let payload ← Payload.deserialize fs
    pure ⟨sent_at, payload⟩
  | _ => .err "invalid type: expected a map"

/-! ## Client layer (`client.rs`) -/

/-- The envelope payload union (`client::Payload<StreamEvent>`),
`#[serde(untagged)]`: a push reply or a custom stream event. -/
inductive ClientPayload where
  | PushReply (status : String) (response : Json)
  | Custom (event : StreamEvent)

/-- Structural decoder of the `PushReply` variant, as the derived
deserializer accepts it inside the untagged union: an object whose
`status` field is a string and whose `response` field is any value
(extra fields are ignored). -/
def pushReplyDecode (j : Json) : SerdeResult (String × Json) :=
  match j with
  | .obj fs => do
    let status ← reqField fs "status" decodeString
    let response ← reqField fs "response" decodeValue
    pure (status, response)
  | _ => .err "invalid type: expected a map"

/-- Untagged deserializer for `client::Payload<StreamEvent>`: the
variants are tried in declaration order, `PushReply` first and
`Custom` only when the reply shape does not match; when both fail the
whole union is a decode error.  A panic raised while attempting the
custom shape propagates. -/
def ClientPayload.deserialize (j : Json) : SerdeResult ClientPayload :=
  match pushReplyDecode j with
  | .ok (status, response) => .ok (.PushReply status response)
  | .panicked => .panicked
  | .err _ =>
    match StreamEvent.deserialize j with
    | .ok ev => .ok (.Custom ev)
    | .panicked => .panicked
    | .err _ => .err "data did not match any variant of untagged enum Payload"

/-- Protocol-level envelope (`client::PhoenixResponse`). -/
structure PhoenixResponse where
  topic : String
  event : String
  payload : Option ClientPayload

/-- Derived deserializer for `PhoenixResponse`. -/
def PhoenixResponse.deserialize (j : Json) : SerdeResult PhoenixResponse :=
  match j with
  | .obj fs => do
    let topic ← reqField fs "topic" decodeString
    let event ← reqField fs "event" decodeString
    let payload ← optField fs "payload" ClientPayload.deserialize
    pure ⟨topic, event, payload⟩
  | _ => .err "invalid type: expected a map"

/-- A text frame delivered on the inbound channel.  serde_json's text
parsing is an external facility; a message is modelled by its parsed
JSON value, with text that is not valid JSON modelled by `notJson`. -/
inductive WireText where
  | json (j : Json)
  | notJson

/-- Model of `serde_json::from_str::<PhoenixResponse>` applied to an
inbound message. -/
def phoenixFromWire : WireText → SerdeResult PhoenixResponse
  | .json j => PhoenixResponse.deserialize j
  | .notJson => .err "invalid JSON"

/-- Pure decoding half of `Client::read_event` applied to one message:
a serde error returns `None` (the message is discarded), a successful
decode surfaces only a `Custom` payload, and a panic during decoding
propagates. -/
def readEventDecode (w : WireText) : SerdeResult (Option StreamEvent) :=
  match phoenixFromWire w with
  | .err _ => .ok none
  | .panicked => .panicked
  | .ok resp =>
    .ok (match resp.payload with
      | some (.Custom c) => some c
      | _ => none)

/-- Caller-side view of the inbound mpsc channel feeding
`Client::read_event`: the queued messages plus whether every sender has
been dropped (which is what happens when the reader task ends after the
underlying connection closes). -/
structure InboundChannel where
  buffer : List WireText
  closed : Bool

/-- Possible outcomes of one `Client::read_event` call. -/
inductive ReadOutcome where
  | returns (val : Option StreamEvent) (rest : InboundChannel)
  | panics
  | suspends

/-- One call of `Client::read_event`: `self.read_rx.recv().await`
yields the next buffered message, suspends while the channel is open
and empty, and yields `None` once the channel is closed and drained —
at which point the source calls `.unwrap()` on it and panics.  A
received message is decoded with `readEventDecode`. -/
def readEventStep (ch : InboundChannel) : ReadOutcome :=
  match ch.buffer with
  | [] => if ch.closed then .panics else .suspends
  | w :: rest =>
    match readEventDecode w with
    | .panicked => .panics
    | .ok v => .returns v ⟨rest, ch.closed⟩
    | .err _ => .returns none ⟨rest, ch.closed⟩

/-! ## Outbound frames (`client.rs`, `protocol.rs`) -/

/-- A collection whose events can be subscribed to
(`protocol::Collection`). -/
inductive ProtocolCollection where
  | Collection (slug : String)
  | All

/-- Source `impl Display for Collection` (protocol.rs): the topic string
`collection:<slug>` or `collection:*`. -/
def ProtocolCollection.display : ProtocolCollection → String
  | .Collection c => "collection:" ++ c
  | .All => "collection:" ++ "*"

/-- Outbound protocol frames (`client::PhoenixMessage`). -/
inductive PhoenixMessage where
  | Heartbeat
  | Subscribe (collection : ProtocolCollection)

/-- Source `impl Display for PhoenixMessage`: the literal JSON frame
text written to the websocket. -/
def PhoenixMessage.display : PhoenixMessage → String
  | .Heartbeat =>
    "\x7b\"topic\": \"phoenix\", \"event\": \"heartbeat\", \"payload\": \x7b\x7d, \"ref\": 0\x7d"
  | .Subscribe collection =>
    "\x7b\"topic\": \"" ++ collection.display ++
      "\", \"event\": \"phx_join\", \"payload\": \x7b\x7d, \"ref\": 0\x7d"

/-! ## Concrete wire values used by the claims -/

/-- Value of a most-significant-first digit list folded onto an
accumulator, mirroring the digit-folding loops. -/
def decValRev : List Nat → Nat → Nat
  | [], acc => acc
  | d :: ds, acc => decValRev ds (acc * 10 + d)

/-- An inbound envelope whose decoding panics: the item's `nft_id` has a
recognized network and a valid address but no token-id segment, so
`NftId::deserialize` unwraps a missing segment. -/
def c2PanicMessage : Json := .obj [
  ("topic", .str "collection:neon-vortex-1"),
  ("event", .str "item_metadata_updated"),
  ("payload", .obj [
    ("event_type", .str "item_metadata_updated"),
    ("payload", .obj [
      ("collection", .obj [("slug", .str "neon-vortex-1")]),
      ("item", .obj [
        ("nft_id", .str "matic/0x978c92725bb4f87c1da3ba2e8b7c11a24e6aa0a5")])]),
    ("sent_at", .str "2023-08-01T22:39:32.033948+00:00")])]

/-- The canonical wire strings of the `Chain` values (the serde tags,
which coincide with the `Display` strings). -/
def chainWireStrings : List String :=
  ["avalanche", "base", "bsc", "ethereum", "optimism", "arbitrum", "arbitrum_nova",
   "matic", "klaytn", "solana", "goerli", "mumbai", "baobab", "zora"]

/-- A payload matching neither envelope-payload shape whose custom-shape
attempt panics: the reply fields are absent and the stream-event decode
reaches a two-segment `nft_id`. -/
def c5PanicPayload : Json := .obj [
  ("sent_at", .str "2023-09-15T10:00:00+00:00"),
  ("event_type", .str "item_metadata_updated"),
  ("payload", .obj [
    ("collection", .obj [("slug", .str "pixel-owls")]),
    ("item", .obj [
      ("nft_id", .str "matic/0x00000000219ab540356cbb839cbe05303d7705fa")])])]

/-- An `order_invalidate` payload with every field except `order_hash`
present and well-formed. -/
def c6InvalidatePayload : Json := .obj [
  ("chain", .obj [("name", .str "ethereum")]),
  ("collection", .obj [("slug", .str "cool-cats")]),
  ("event_timestamp", .str "2023-08-01T22:39:32+00:00"),
  ("item", .obj []),
  ("protocol_address", .str "0x00000000000000adc04c56bf30ac9d3c0aaf14dc")]

/-- An `order_revalidate` payload with every field except `order_hash`
present and well-formed. -/
def c6RevalidatePayload : Json := .obj [
  ("chain", .obj [("name", .str "ethereum")]),
  ("collection", .obj [("slug", .str "cool-cats")]),
  ("event_timestamp", .str "2023-08-01T22:39:32+00:00"),
  ("item", .obj []),
  ("protocol_address", .str "0x00000000000000adc04c56bf30ac9d3c0aaf14dc")]

/-! ## Round-trip lemmas for the decimal and hexadecimal codecs -/


theorem decValRev_append (a b : List Nat) (acc : Nat) :
    decValRev (a ++ b) acc = decValRev b (decValRev a acc) := by
  induction a generalizing acc with
  | nil => rfl
  | cons d ds ih => simp [decValRev, ih]

theorem le_decValRev (ds : List Nat) (acc : Nat) : acc ≤ decValRev ds acc := by
  induction ds generalizing acc with
  | nil => exact Nat.le_refl _
  | cons d ds ih =>
    calc acc ≤ acc * 10 + d := by omega
      _ ≤ decValRev ds (acc * 10 + d) := ih _
      _ = decValRev (d :: ds) acc := rfl

theorem digitChar_byte (d : Nat) (h : d < 10) :
    ((Nat.digitChar d).toNat + 256 - 48) % 256 = d := by
  interval_cases d <;> rfl

theorem decDigitsGo_spec (cap : Nat) (ds : List Nat) (acc : Nat)
    (hd : ∀ d ∈ ds, d < 10) (hb : decValRev ds acc ≤ cap) :
    decDigitsGo cap acc (ds.map Nat.digitChar) = some (decValRev ds acc) := by
  induction ds generalizing acc with
  | nil => rfl
  | cons d ds ih =>
    have hd0 : d < 10 := hd d (by simp)
    have hstep : acc * 10 + d ≤ cap := by
      calc acc * 10 + d ≤ decValRev ds (acc * 10 + d) := le_decValRev _ _
        _ = decValRev (d :: ds) acc := rfl
        _ ≤ cap := hb
    simp only [List.map_cons, decDigitsGo, digitChar_byte d hd0]
    rw [if_neg (by omega), if_neg (by omega)]
    exact ih (acc * 10 + d) (fun x hx => hd x (by simp [hx])) hb

theorem natToDecDigits_lt (fuel n : Nat) : ∀ d ∈ natToDecDigits fuel n, d < 10 := by
  induction fuel generalizing n with
  | zero => simp [natToDecDigits]
  | succ f ih =>
    intro d hd
    simp only [natToDecDigits] at hd
    by_cases h : n = 0
    · simp [h] at hd
    · rw [if_neg h] at hd
      rcases List.mem_append.mp hd with h1 | h2
      · exact ih _ d h1
      · simp at h2; omega

theorem natToDecDigits_val (fuel n acc : Nat) (h : n < 10 ^ fuel) :
    decValRev (natToDecDigits fuel n) acc =
      acc * 10 ^ (natToDecDigits fuel n).length + n := by
  induction fuel generalizing n acc with
  | zero =>
    simp [natToDecDigits, decValRev]
    omega
  | succ f ih =>
    by_cases h0 : n = 0
    · simp [natToDecDigits, h0, decValRev]
    · have hdiv : n / 10 < 10 ^ f := by
        rw [pow_succ, Nat.mul_comm] at h
        exact Nat.div_lt_of_lt_mul (by omega)
      simp only [natToDecDigits, if_neg h0, decValRev_append, List.length_append]
      rw [ih (n / 10) acc hdiv]
      simp [decValRev]
      rw [pow_succ]
      ring_nf
      omega

theorem natToDecDigits_ne_nil (fuel n : Nat) (h0 : n ≠ 0) (h : n < 10 ^ fuel) :
    natToDecDigits fuel n ≠ [] := by
  intro hnil
  have := natToDecDigits_val fuel n 0 h
  rw [hnil] at this
  simp [decValRev] at this
  omega

theorem natToDecDigits_head_ne_zero (fuel n : Nat) (h0 : n ≠ 0) (h : n < 10 ^ fuel) :
    ∀ d ds, natToDecDigits fuel n = d :: ds → d ≠ 0 := by
  induction fuel generalizing n with
  | zero => intro d ds hds; simp [natToDecDigits] at hds
  | succ f ih =>
    intro d ds hds
    simp only [natToDecDigits, if_neg h0] at hds
    by_cases hq : n / 10 = 0
    · have hfl : natToDecDigits f (n / 10) = [] := by
        cases f <;> simp [natToDecDigits, hq]
      rw [hfl] at hds
      simp at hds
      omega
    · have hdiv : n / 10 < 10 ^ f := by
        rw [pow_succ, Nat.mul_comm] at h
        exact Nat.div_lt_of_lt_mul (by omega)
      rcases hcons : natToDecDigits f (n / 10) with _ | ⟨d1, ds1⟩
      · exact absurd hcons (natToDecDigits_ne_nil f (n / 10) hq hdiv)
      · rw [hcons] at hds
        simp at hds
        rw [← hds.1]
        exact ih (n / 10) hq hdiv d1 ds1 hcons

/-- Decomposition of a nonzero number's decimal rendering: digit
characters of a nonzero-headed digit list whose value is the number. -/
theorem natToDecStr_spec (n : Nat) (h0 : n ≠ 0) :
    ∃ (d : Nat) (ds : List Nat),
      (natToDecStr n).data = (d :: ds).map Nat.digitChar ∧
      d ≠ 0 ∧ (∀ x ∈ d :: ds, x < 10) ∧ decValRev (d :: ds) 0 = n := by
  have hn : n < 10 ^ n := Nat.lt_pow_self (by omega) n
  rcases hcons : natToDecDigits n n with _ | ⟨d, ds⟩
  · exact absurd hcons (natToDecDigits_ne_nil n n h0 hn)
  · refine ⟨d, ds, ?_, ?_, ?_, ?_⟩
    · simp [natToDecStr, if_neg h0, hcons]
    · exact natToDecDigits_head_ne_zero n n h0 hn d ds hcons
    · intro x hx
      exact natToDecDigits_lt n n x (by rw [hcons]; exact hx)
    · have := natToDecDigits_val n n 0 hn
      rw [hcons] at this
      simpa using this

theorem u256_roundtrip (n : Nat) (h : n < 2 ^ 256) :
    u256_fromstr_radix_10.deserialize (u256_fromstr_radix_10.serialize n) = .ok n := by
  by_cases h0 : n = 0
  · subst h0; rfl
  · obtain ⟨d, ds, hdata, _, hlt, hval⟩ := natToDecStr_spec n h0
    simp only [u256_fromstr_radix_10.serialize, u256_fromstr_radix_10.deserialize, hdata]
    rw [decDigitsGo_spec (2 ^ 256 - 1) _ 0 hlt (by omega), hval]

theorem parseI64_natToDecStr (m : Nat) (hm : m ≤ 2 ^ 63 - 1) :
    parseI64 (natToDecStr m) = some (m : Int) := by
  by_cases h0 : m = 0
  · subst h0; rfl
  · obtain ⟨d, ds, hdata, _, hlt, hval⟩ := natToDecStr_spec m h0
    have hd10 : d < 10 := hlt d (by simp)
    have hplus : Nat.digitChar d ≠ '+' := by interval_cases d <;> decide
    have hminus : Nat.digitChar d ≠ '-' := by interval_cases d <;> decide
    simp only [parseI64, hdata, List.map_cons]
    rw [if_neg hplus, if_neg hminus, ← List.map_cons]
    rw [decDigitsGo_spec (2 ^ 63 - 1) _ 0 hlt (by omega), hval]
    rfl

theorem parseI64_intToDecStr (n : Int) (hlo : -(2 ^ 63) ≤ n) (hhi : n < 2 ^ 63) :
    parseI64 (intToDecStr n) = some n := by
  by_cases hneg : n < 0
  · have h0 : n.natAbs ≠ 0 := by omega
    obtain ⟨d, ds, hdata, _, hlt, hval⟩ := natToDecStr_spec n.natAbs h0
    have hdata2 : (intToDecStr n).data = '-' :: (natToDecStr n.natAbs).data := by
      rw [intToDecStr, if_pos hneg]
      rfl
    simp only [parseI64, hdata2, hdata, List.map_cons, List.isEmpty_cons, if_true,
      reduceCtorEq, reduceIte]
    rw [← List.map_cons, decDigitsGo_spec (2 ^ 63) _ 0 hlt (by omega), hval]
    have habs : -((n.natAbs : Nat) : Int) = n := by omega
    simp [habs]
    rw [abs_of_nonpos (by omega : n ≤ 0)]
    ring
  · have hge : 0 ≤ n := by omega
    have : intToDecStr n = natToDecStr n.toNat := by rw [intToDecStr, if_neg hneg]
    rw [this, parseI64_natToDecStr n.toNat (by omega)]
    congr 1
    omega

/-- Helper: splitting a remainder at one more base digit. -/
theorem mod_mul_split (v A b : Nat) (hA : 0 < A) (hb : 0 < b) :
    v % (A * b) = A * (v / A % b) + v % A := by
  have hr : v % A < A := Nat.mod_lt _ hA
  have hq : v / A % b < b := Nat.mod_lt _ hb
  have hlt : A * (v / A % b) + v % A < A * b := by
    have h1 : A * (v / A % b) + A ≤ A * b := by
      have h2 : v / A % b + 1 ≤ b := hq
      calc A * (v / A % b) + A = A * (v / A % b + 1) := by ring
        _ ≤ A * b := Nat.mul_le_mul_left _ h2
    omega
  conv_lhs => rw [← Nat.div_add_mod v A, ← Nat.div_add_mod (v / A) b]
  rw [Nat.mul_add, ← Nat.mul_assoc, Nat.add_assoc, Nat.mul_add_mod]
  exact Nat.mod_eq_of_lt hlt

theorem hexDigitVal_digitChar (d : Nat) (h : d < 16) :
    hexDigitVal (Nat.digitChar d) = some d := by
  interval_cases d <;> rfl

theorem toHexFixed_length (w v : Nat) : (toHexFixed w v).length = w := by
  induction w generalizing v with
  | zero => rfl
  | succ w ih => simp [toHexFixed, ih]

theorem parseHexChars_toHexFixed (w v acc : Nat) :
    parseHexChars (toHexFixed w v) acc = some (acc * 16 ^ w + v % 16 ^ w) := by
  induction w generalizing acc with
  | zero => simp [toHexFixed, parseHexChars, Nat.mod_one]
  | succ w ih =>
    simp only [toHexFixed, parseHexChars,
      hexDigitVal_digitChar _ (Nat.mod_lt _ (by omega))]
    rw [ih]
    congr 1
    rw [pow_succ, mod_mul_split v (16 ^ w) 16 (by positivity) (by omega)]
    ring

theorem fixedHash_roundtrip (nibbles v : Nat) (h : v < 16 ^ nibbles) :
    fixedHashFromJson nibbles (fixedHashToJson nibbles v) = .ok v := by
  simp only [fixedHashToJson, fixedHashFromJson, and_self, if_true]
  rw [if_pos (toHexFixed_length nibbles v), parseHexChars_toHexFixed]
  simp [Nat.mod_eq_of_lt h]

/-! ## Claim C1 — read_event after connection close -/

/-- Claim C1, counterexample: with the underlying connection closed (all
senders dropped) and the inbound buffer drained, `Client::read_event`
does not return `None` — it panics, because the source unwraps the
`None` returned by `recv()` on the closed channel. -/
theorem read_event_closed_counterexample :
    readEventStep ⟨[], true⟩ = .panics ∧
    readEventStep ⟨[], true⟩ ≠ .returns none ⟨[], true⟩ :=
  ⟨rfl, fun h => ReadOutcome.noConfusion h⟩

/-- Claim C1 (amended): once the underlying connection has closed and
the inbound queue is drained, every subsequent `Client::read_event` call
panics (unwrap on a closed channel) rather than returning `None`; the
panic is stable, with no revival. -/
theorem read_event_closed_panics (ch : InboundChannel)
    (hc : ch.closed = true) (hb : ch.buffer = []) :
    readEventStep ch = .panics := by
  cases ch
  simp_all [readEventStep]

/-- Claim C1, witness: the amended theorem applied to the empty closed
channel. -/
theorem read_event_closed_panics_witness :
    (InboundChannel.mk [] true).closed = true ∧ readEventStep ⟨[], true⟩ = .panics :=
  ⟨rfl, read_event_closed_panics ⟨[], true⟩ rfl rfl⟩

/-! ## Claim C2 — decode errors are non-fatal, but panics are reachable -/


/-- Claim C2, counterexample: decoding this single untrusted message
panics instead of discarding it, so a panic is reachable from decoding
untrusted message text. -/
theorem decode_error_panic_counterexample :
    readEventDecode (.json c2PanicMessage) = .panicked ∧
    readEventDecode (.json c2PanicMessage) ≠ .ok none :=
  ⟨rfl, fun h => SerdeResult.noConfusion h⟩

/-- Claim C2 (amended): every inbound message on which the envelope
decoder reports a structured decode error (malformed JSON, missing
field, unrecognized enumeration value, codec failure) is non-fatal:
`read_event` returns `None`, the message is discarded, and the session
continues with the remaining queue; however some untrusted messages
panic inside the decoder instead of producing a decode error (for
example a two-segment `nft_id`), so the no-panic guarantee does not
hold. -/
theorem decode_error_nonfatal (w : WireText) (rest : List WireText) (cl : Bool)
    (e : String) (h : phoenixFromWire w = .err e) :
    readEventStep ⟨w :: rest, cl⟩ = .returns none ⟨rest, cl⟩ := by
  simp [readEventStep, readEventDecode, h]

/-- Claim C2, witness: the amended theorem applied to a message that is
not valid JSON. -/
theorem decode_error_nonfatal_witness :
    phoenixFromWire .notJson = .err "invalid JSON" ∧
    readEventStep ⟨[.notJson], false⟩ = .returns none ⟨[], false⟩ :=
  ⟨rfl, decode_error_nonfatal .notJson [] false "invalid JSON" rfl⟩

/-! ## Claim C3 — the protocol-parameters timestamp codec -/

/-- Claim C3, counterexample: in `timestamp_to_date`, decoding an ISO
8601 / RFC 3339 string with explicit offset does not succeed — the
untagged string arm matches first and the epoch parse unwrap panics;
decoding the equivalent epoch seconds as a number is a decode error;
only the epoch seconds given as a string decodes. -/
theorem timestamp_codec_counterexample :
    timestamp_to_date.deserialize (.str "2023-08-01T22:39:32+00:00") = .panicked ∧
    timestamp_to_date.deserialize (.num 1690929572) =
      .err "data did not match any variant of untagged enum StringFloat" ∧
    timestamp_to_date.deserialize (.str "1690929572") = .ok ⟨1690929572, 0⟩ :=
  ⟨by decide, rfl, by decide⟩

/-- Claim C3 (amended): the `timestamp_to_date` codec decodes exactly
epoch seconds carried as a string (for any instant in chrono's
representable range), yielding that UTC instant; an ISO-8601 string
with explicit offset panics in the epoch parse, and an epoch-seconds
number is a decode failure; encoding any instant always emits the
epoch-seconds decimal string. -/
theorem timestamp_codec_amended (n : Int)
    (hlo : chronoMinTimestamp ≤ n) (hhi : n ≤ chronoMaxTimestamp) :
    timestamp_to_date.deserialize (.str (intToDecStr n)) = .ok ⟨n, 0⟩ ∧
    (∀ dt : DateTimeUtc, timestamp_to_date.serialize dt = .str (intToDecStr dt.secs)) := by
  constructor
  · have hmin : -(2 ^ 63) ≤ chronoMinTimestamp := by decide
    have hmax : chronoMaxTimestamp < 2 ^ 63 := by decide
    have h1 : parseI64 (intToDecStr n) = some n :=
      parseI64_intToDecStr n (by omega) (by omega)
    simp only [timestamp_to_date.deserialize, h1, fromTimestampOpt]
    rw [if_pos ⟨hlo, hhi⟩]
  · intro dt
    rfl

/-- Claim C3, witness: the amended theorem applied to the epoch value
1690929572 (2023-08-01T22:39:32Z). -/
theorem timestamp_codec_amended_witness :
    chronoMinTimestamp ≤ 1690929572 ∧
    timestamp_to_date.deserialize (.str (intToDecStr 1690929572)) = .ok ⟨1690929572, 0⟩ :=
  ⟨by decide, (timestamp_codec_amended 1690929572 (by decide) (by decide)).1⟩

/-! ## Claim C4 — Chain wire strings -/


/-- Claim C4, counterexample: Goerli's canonical wire string is
`"goerli"` (both as serde tag and as display text), yet
`Chain::from_str "goerli"` fails instead of yielding Goerli, so not
every value round-trips through `from_str`. -/
theorem chain_goerli_counterexample :
    Chain.display .Goerli = "goerli" ∧ Chain.serdeTag .Goerli = "goerli" ∧
    Chain.from_str "goerli" = none :=
  ⟨rfl, rfl, rfl⟩

/-- Claim C4 (amended): every `Chain` value except Goerli decodes back
from its canonical wire string via `Chain::from_str`, and every value
(Goerli included) round-trips through the serde tag; the wire string
`"matic"` maps to Polygon and Polygon encodes to `"matic"` in both
directions; and every wire string outside the canonical set fails both
decoders rather than defaulting to any chain. -/
theorem chain_codec_amended :
    (∀ c : Chain, c ≠ .Goerli → Chain.from_str (Chain.display c) = some c) ∧
    (∀ c : Chain, Chain.fromJson (Chain.toJson c) = .ok c) ∧
    (Chain.from_str "matic" = some .Polygon ∧ Chain.display .Polygon = "matic" ∧
      Chain.serdeTag .Polygon = "matic") ∧
    (∀ s : String, s ∉ chainWireStrings → Chain.from_str s = none) ∧
    (∀ s : String, s ∉ chainWireStrings →
      Chain.fromJson (.obj [("name", .str s)]) = .err "unknown variant of Chain") := by
  refine ⟨?_, ?_, ⟨rfl, rfl, rfl⟩, ?_, ?_⟩
  · intro c hc
    cases c <;> first | rfl | exact absurd rfl hc
  · intro c
    cases c <;> rfl
  · intro s hs
    simp only [chainWireStrings, List.mem_cons, List.not_mem_nil, or_false] at hs
    push_neg at hs
    unfold Chain.from_str
    split <;> simp_all
  · intro s hs
    simp only [chainWireStrings, List.mem_cons, List.not_mem_nil, or_false] at hs
    push_neg at hs
    show Chain.tagDecode s = .err "unknown variant of Chain"
    unfold Chain.tagDecode
    split <;> simp_all

/-- Claim C4, witness: the amended theorem applied to Ethereum and to an
unknown wire string. -/
theorem chain_codec_amended_witness :
    Chain.from_str (Chain.display .Ethereum) = some .Ethereum ∧
    Chain.from_str "dogecoin" = none :=
  ⟨chain_codec_amended.1 .Ethereum (by decide),
   chain_codec_amended.2.2.2.1 "dogecoin" (by decide)⟩

/-! ## Claim C5 — push-reply disambiguation -/


/-- Claim C5, counterexample: this payload matches neither the push-reply
shape (no `status` field) nor, successfully, the custom shape — and
instead of a decode failure, attempting the custom shape crashes
(panics), so "a payload matching neither shape is a decode failure, not
a crash" fails. -/
theorem payload_neither_shape_counterexample :
    pushReplyDecode c5PanicPayload = .err "missing field status" ∧
    ClientPayload.deserialize c5PanicPayload = .panicked :=
  ⟨rfl, rfl⟩

/-- Claim C5 (amended): the untagged envelope payload attempts the
push-reply shape first, and every payload accepted by the reply shape is
never surfaced by `read_event`; the custom shape is attempted only when
the reply shape does not match, and a payload on which both shapes
report a decode error is a decode failure of the union — but a payload
that panics inside the custom attempt crashes rather than failing. -/
theorem payload_disambiguation_amended :
    (∀ (j : Json) (s : String) (r : Json), pushReplyDecode j = .ok (s, r) →
      ClientPayload.deserialize j = .ok (.PushReply s r)) ∧
    (∀ (w : WireText) (resp : PhoenixResponse) (s : String) (r : Json)
        (rest : List WireText) (cl : Bool),
      phoenixFromWire w = .ok resp → resp.payload = some (.PushReply s r) →
      readEventStep ⟨w :: rest, cl⟩ = .returns none ⟨rest, cl⟩) ∧
    (∀ (j : Json) (e1 e2 : String), pushReplyDecode j = .err e1 →
      StreamEvent.deserialize j = .err e2 →
      ClientPayload.deserialize j =
        .err "data did not match any variant of untagged enum Payload") := by
  refine ⟨?_, ?_, ?_⟩
  · intro j s r h
    simp [ClientPayload.deserialize, h]
  · intro w resp s r rest cl h1 h2
    simp [readEventStep, readEventDecode, h1, h2]
  · intro j e1 e2 h1 h2
    simp [ClientPayload.deserialize, h1, h2]

/-- Claim C5, witness: a reply envelope on the queue is consumed without
surfacing an event. -/
theorem payload_disambiguation_witness :
    readEventStep ⟨[.json (.obj [
      ("topic", .str "collection:pixel-owls"),
      ("event", .str "phx_reply"),
      ("payload", .obj [("status", .str "ok"), ("response", .obj [])])])], false⟩ =
      .returns none ⟨[], false⟩ :=
  payload_disambiguation_amended.2.1
    (.json (.obj [
      ("topic", .str "collection:pixel-owls"),
      ("event", .str "phx_reply"),
      ("payload", .obj [("status", .str "ok"), ("response", .obj [])])]))
    ⟨"collection:pixel-owls", "phx_reply", some (.PushReply "ok" (.obj []))⟩
    "ok" (.obj []) [] false rfl rfl

/-! ## Claim C6 — order-hash optionality -/


/-- Claim C6 (confirmed): with all other required fields present and
well-formed, an `order_invalidate` payload without `order_hash` decodes
successfully with `none` for the hash, while an `order_revalidate`
payload without `order_hash` is a decode failure (missing required
field). -/
theorem order_hash_optionality :
    OrderInvalidateData.deserialize c6InvalidatePayload =
      .ok ⟨.Ethereum, ⟨"cool-cats"⟩, ⟨1690929572, 0⟩, ⟨none, none, none, none⟩, none,
           0x00000000000000adc04c56bf30ac9d3c0aaf14dc⟩ ∧
    OrderRevalidateData.deserialize c6RevalidatePayload = .err "missing field order_hash" :=
  ⟨by decide, by decide⟩

/-! ## Claim C7 — big-integer codec round trip -/

/-- Claim C7 (confirmed): for every `n` below `2 ^ 256` (so in
particular every 128-bit value), decoding the `u256_fromstr_radix_10`
encoding of `n` yields `n` back; the encoding of zero is exactly `"0"`;
and a nonzero encoding never starts with the digit `0`, so the encoding
is the canonical decimal digit string. -/
theorem u256_codec_roundtrip (n : Nat) (h : n < 2 ^ 256) :
    u256_fromstr_radix_10.deserialize (u256_fromstr_radix_10.serialize n) = .ok n ∧
    u256_fromstr_radix_10.serialize 0 = .str "0" ∧
    (∀ (c : Char) (cs : List Char), n ≠ 0 →
      u256_fromstr_radix_10.serialize n = .str (String.mk (c :: cs)) → c ≠ '0') := by
  refine ⟨u256_roundtrip n h, rfl, ?_⟩
  intro c cs h0 hser
  obtain ⟨d, ds, hdata, hd0, hlt, _⟩ := natToDecStr_spec n h0
  have hchar : ∀ d : Nat, d < 10 → d ≠ 0 → Nat.digitChar d ≠ '0' := by decide
  have hstr : (natToDecStr n).data = c :: cs := by
    have := congrArg (fun j => match j with | Json.str t => t.data | _ => []) hser
    simpa [u256_fromstr_radix_10.serialize] using this
  rw [hdata] at hstr
  simp only [List.map_cons, List.cons.injEq] at hstr
  rw [← hstr.1]
  exact hchar d (hlt d (by simp)) hd0

/-- Claim C7, witness: the round trip at the 256-bit value `2 ^ 255`. -/
theorem u256_codec_roundtrip_witness :
    u256_fromstr_radix_10.deserialize (u256_fromstr_radix_10.serialize (2 ^ 255)) =
      .ok (2 ^ 255) :=
  (u256_codec_roundtrip (2 ^ 255) (by norm_num)).1

/-! ## Claim C8 — address codec round trip -/

/-- Claim C8 (confirmed): for every 20-byte address value, decoding the
single-field wrapper encoding yields the value back, for the required
codec and for the optional codec (on both a present and an absent
address). -/
theorem address_codec_roundtrip (a : Address) (h : a < 2 ^ 160) :
    address_fromjson.deserialize (address_fromjson.serialize a) = .ok a ∧
    address_fromjson_opt.deserialize (address_fromjson_opt.serialize (some a)) =
      .ok (some a) ∧
    address_fromjson_opt.deserialize (address_fromjson_opt.serialize none) = .ok none := by
  have h40 : a < 16 ^ 40 := by
    have hp : (16 : Nat) ^ 40 = 2 ^ 160 := by norm_num
    rw [hp]
    exact h
  have hrt := fixedHash_roundtrip 40 a h40
  refine ⟨?_, ?_, rfl⟩
  · simp [address_fromjson.deserialize, address_fromjson.serialize, reqField,
      jsonLookup, hrt]
  · simp [address_fromjson_opt.deserialize, address_fromjson_opt.serialize, reqField,
      jsonLookup, hrt, SerdeResult.map]

/-- Claim C8, witness: the round trip at a concrete address. -/
theorem address_codec_roundtrip_witness :
    address_fromjson.deserialize
      (address_fromjson.serialize 0x978c92725bb4f87c1da3ba2e8b7c11a24e6aa0a5) =
      .ok 0x978c92725bb4f87c1da3ba2e8b7c11a24e6aa0a5 :=
  (address_codec_roundtrip 0x978c92725bb4f87c1da3ba2e8b7c11a24e6aa0a5 (by norm_num)).1

/-! ## Claim C9 — outbound wire frames -/

/-- Claim C9 (confirmed): the serialized heartbeat frame is exactly the
JSON object with topic `phoenix`, event `heartbeat`, empty payload and
ref 0; and every join frame is exactly the JSON object with topic
`collection:<slug>` (or `collection:*` for the wildcard), event
`phx_join`, empty payload and ref 0. -/
theorem outbound_frames :
    PhoenixMessage.display .Heartbeat =
      "\x7b\"topic\": \"phoenix\", \"event\": \"heartbeat\", \"payload\": \x7b\x7d, \"ref\": 0\x7d" ∧
    (∀ slug : String, PhoenixMessage.display (.Subscribe (.Collection slug)) =
      "\x7b\"topic\": \"" ++ ("collection:" ++ slug) ++
        "\", \"event\": \"phx_join\", \"payload\": \x7b\x7d, \"ref\": 0\x7d") ∧
    PhoenixMessage.display (.Subscribe .All) =
      "\x7b\"topic\": \"collection:*\", \"event\": \"phx_join\", \"payload\": \x7b\x7d, \"ref\": 0\x7d" :=
  ⟨rfl, fun _ => rfl, rfl⟩

/-! ## Claim C10 — NftId decoding is not total -/

/-- Claim C10 (confirmed): for every input string splitting into exactly
two segments whose first segment is a recognized chain wire string and
whose second segment parses as an address, `NftId::deserialize` panics
on the missing third segment; and only inputs with three segments ever
decode to a value. -/
theorem nftid_two_segment_panics :
    (∀ (s n a : String) (c : Chain) (v : Address), splitn3 s = [n, a] →
      Chain.from_str n = some c → addressFromStr a = some v →
      NftId.deserialize (.str s) = .panicked) ∧
    (∀ (s : String) (v : NftId), NftId.deserialize (.str s) = .ok v →
      (splitn3 s).length = 3) := by
  constructor
  · intro s n a c v hsplit hchain haddr
    simp [NftId.deserialize, hsplit, hchain, haddr]
  · intro s v h
    simp only [NftId.deserialize] at h
    rcases hs : splitn3 s with _ | ⟨n, rest⟩
    · rw [hs] at h; exact SerdeResult.noConfusion h
    · rcases rest with _ | ⟨a, rest2⟩
      · rw [hs] at h
        rcases hchain : Chain.from_str n with _ | c <;> simp [hchain] at h
      · rcases rest2 with _ | ⟨i, rest3⟩
        · rw [hs] at h
          rcases hchain : Chain.from_str n with _ | c <;>
            rcases haddr : addressFromStr a with _ | v2 <;>
            simp [hchain, haddr] at h
        · rcases rest3 with _ | ⟨x, rest4⟩
          · rfl
          · rw [hs] at h; exact SerdeResult.noConfusion h

/-- Claim C10, witness: the panic at a concrete two-segment NFT id with
a recognized network and a 20-byte address. -/
theorem nftid_two_segment_panics_witness :
    NftId.deserialize (.str "ethereum/0x978c92725bb4f87c1da3ba2e8b7c11a24e6aa0a5") =
      .panicked :=
  nftid_two_segment_panics.1 "ethereum/0x978c92725bb4f87c1da3ba2e8b7c11a24e6aa0a5"
    "ethereum" "0x978c92725bb4f87c1da3ba2e8b7c11a24e6aa0a5" .Ethereum
    0x978c92725bb4f87c1da3ba2e8b7c11a24e6aa0a5 (by decide) rfl (by decide)
